import Mathlib

/-!
Verification of the farm_todo backend (src/backend/src/server.py).

The repository ships only the HTTP route layer (`server.py`); the data
access layer it imports (`dal.py`) is not part of the sources, so the DAL
operations are modelled from the specification's §4.1 contract.  The route
handlers themselves are embedded directly from `server.py`.

Identifiers generated by the document store (MongoDB ObjectIds, strings in
the wire format) are modelled as natural numbers handed out by a counter
`nextId` carried in the store state; the store itself is the list of
to-do-list documents.
-/

namespace FarmTodo

/-- A to-do item document: `{id, label, checked}` (spec §3, §6 persisted
state layout). -/
structure ToDoItem where
  id : Nat
  label : String
  checked : Bool
deriving Repr, DecidableEq

/-- A to-do list document: `{_id, name, items}` (spec §3, §6 persisted
state layout). -/
structure ToDoList where
  id : Nat
  name : String
  items : List ToDoItem
deriving Repr, DecidableEq

/-- Projection of a list to `{id, name, item_count}` (spec §3). -/
structure ListSummary where
  id : Nat
  name : String
  item_count : Nat
deriving Repr, DecidableEq

/-- The document store: one collection of list documents, plus the
generator state for fresh object identifiers. -/
structure Store where
  docs : List ToDoList
  nextId : Nat
deriving Repr, DecidableEq

/-- A single atomic find-and-update over the collection: locate the first
document matching the filter `p`, replace it with `f` applied to it, and
return the updated document together with the updated collection (the
store's `find_one_and_update` with the updated document returned).
Returns `none` when the filter matches zero documents. -/
def findAndUpdate (p : ToDoList → Bool) (f : ToDoList → ToDoList) :
    List ToDoList → Option (ToDoList × List ToDoList)
  | [] => none
  | d :: ds =>
    if p d then some (f d, f d :: ds)
    else
      match findAndUpdate p f ds with
      | none => none
      | some (r, ds2) => some (r, d :: ds2)

/-- Modelled from the spec (dal.py is absent from src/): `list_todo_lists()`
produces one ListSummary per stored list, projecting only
id/name/item-count (spec §4.1). -/
def Store.list_todo_lists (s : Store) : List ListSummary :=
  s.docs.map (fun d => ⟨d.id, d.name, d.items.length⟩)

/-- Modelled from the spec (dal.py is absent from src/):
`create_todo_list(name)` inserts a new document with the given name and an
empty item sequence and returns the generated id (spec §4.1). -/
def Store.create_todo_list (s : Store) (name : String) : Nat × Store :=
  (s.nextId, ⟨s.docs ++ [⟨s.nextId, name, []⟩], s.nextId + 1⟩)

/-- Modelled from the spec (dal.py is absent from src/): `get_todo_list(id)`
returns the full ToDoList for a valid id, or a NotFound outcome when no
document matches (spec §4.1). -/
def Store.get_todo_list (s : Store) (id : Nat) : Option ToDoList :=
  s.docs.find? (fun d => d.id == id)

/-- Modelled from the spec (dal.py is absent from src/):
`delete_todo_list(id)` removes the document and returns whether a document
was actually deleted — false, not an error, if absent (spec §4.1). -/
def Store.delete_todo_list (s : Store) (id : Nat) : Bool × Store :=
  (s.docs.any (fun d => d.id == id), ⟨s.docs.filter (fun d => d.id != id), s.nextId⟩)

/-- Modelled from the spec (dal.py is absent from src/):
`create_item(list_id, label)` appends a new item (fresh id, given label,
checked=false) to the named list's item sequence as one atomic update
filtered by list id; returns the updated full ToDoList, or a not-found
signal if the list id does not exist (spec §4.1). -/
def Store.create_item (s : Store) (list_id : Nat) (label : String) :
    Option (ToDoList × Store) :=
  match findAndUpdate (fun d => d.id == list_id)
      (fun d => { d with items := d.items ++ [⟨s.nextId, label, false⟩] }) s.docs with
  | none => none
  | some (r, docs2) => some (r, ⟨docs2, s.nextId + 1⟩)

/-- Modelled from the spec (dal.py is absent from src/):
`delete_item(list_id, item_id)` removes the item with that id from the
list's sequence as one atomic update filtered by list id and nested item
id (an array pull); returns the updated ToDoList, or not-found if either
the list or the item is absent (spec §4.1, §4.1 atomic-filter paragraph). -/
def Store.delete_item (s : Store) (list_id item_id : Nat) :
    Option (ToDoList × Store) :=
  match findAndUpdate
      (fun d => d.id == list_id && d.items.any (fun it => it.id == item_id))
      (fun d => { d with items := d.items.filter (fun it => it.id != item_id) })
      s.docs with
  | none => none
  | some (r, docs2) => some (r, ⟨docs2, s.nextId⟩)

/-- Modelled from the spec (dal.py is absent from src/):
`set_checked_state(list_id, item_id, checked)` sets the checked flag on the
named item as one atomic update filtered by list id and nested item id (a
field set); returns the updated ToDoList, or not-found if either id is
absent (spec §4.1, §4.1 atomic-filter paragraph). -/
def Store.set_checked_state (s : Store) (list_id item_id : Nat) (checked : Bool) :
    Option (ToDoList × Store) :=
  match findAndUpdate
      (fun d => d.id == list_id && d.items.any (fun it => it.id == item_id))
      (fun d => { d with
        items := d.items.map
          (fun it => if it.id == item_id then { it with checked := checked } else it) })
      s.docs with
  | none => none
  | some (r, docs2) => some (r, ⟨docs2, s.nextId⟩)

/-- An HTTP response: either a success with a status code and a typed JSON
body, or an `HTTPException`-style error with a status code and detail
message. -/
inductive HTTPResult (α : Type) where
  | ok : Nat → α → HTTPResult α
  | error : Nat → String → HTTPResult α
deriving Repr, DecidableEq

/-- Response body of POST /api/lists (server.py `NewListResponse`). -/
structure NewListResponse where
  id : Nat
  name : String
deriving Repr, DecidableEq

/-- Response body of GET /api/dummy (server.py `DummyResponse`). -/
structure DummyResponse where
  id : String
  when : Nat
deriving Repr, DecidableEq

/-- GET /api/lists (server.py `get_all_lists`): 200 with the summaries. -/
def get_all_lists (s : Store) : HTTPResult (List ListSummary) :=
  .ok 200 s.list_todo_lists

/-- POST /api/lists (server.py `create_todo_list`): 201 with the generated
id and the given name. -/
def create_todo_list (s : Store) (name : String) :
    HTTPResult NewListResponse × Store :=
  ((fun p => (.ok 201 ⟨p.1, name⟩, p.2)) : Nat × Store → _) (s.create_todo_list name)

/-- GET /api/lists/\x7blist_id\x7d (server.py `get_list`): the DAL result;
its NotFound outcome surfaces as HTTP 404 (spec §4.2). -/
def get_list (s : Store) (list_id : Nat) : HTTPResult ToDoList :=
  match s.get_todo_list list_id with
  | some l => .ok 200 l
  | none => .error 404 "Not Found"

/-- DELETE /api/lists/\x7blist_id\x7d (server.py `delete_list`): always 200
with `{"success": b}` where `b` is the DAL's deletion flag. -/
def delete_list (s : Store) (list_id : Nat) : HTTPResult Bool × Store :=
  ((fun p => (.ok 200 p.1, p.2)) : Bool × Store → _) (s.delete_todo_list list_id)

/-- POST /api/lists/\x7blist_id\x7d/items (server.py `create_todo_item`):
201 with the updated list, or 404 "List not found" when the DAL signals
not-found. -/
def create_todo_item (s : Store) (list_id : Nat) (label : String) :
    HTTPResult ToDoList × Store :=
  match s.create_item list_id label with
  | none => (.error 404 "List not found", s)
  | some (l, s2) => (.ok 201 l, s2)

/-- DELETE /api/lists/\x7blist_id\x7d/items/\x7bitem_id\x7d (server.py
`delete_item`): 200 with the updated list, or 404 "Item not found" when
the DAL signals not-found. -/
def delete_item (s : Store) (list_id item_id : Nat) :
    HTTPResult ToDoList × Store :=
  match s.delete_item list_id item_id with
  | none => (.error 404 "Item not found", s)
  | some (l, s2) => (.ok 200 l, s2)

/-- PATCH /api/lists/\x7blist_id\x7d/checked_state (server.py
`set_checked_state`): 200 with the updated list, or 404 "Item not found"
when the DAL signals not-found. -/
def set_checked_state (s : Store) (list_id item_id : Nat) (checked_state : Bool) :
    HTTPResult ToDoList × Store :=
  match s.set_checked_state list_id item_id checked_state with
  | none => (.error 404 "Item not found", s)
  | some (l, s2) => (.ok 200 l, s2)

/-- GET /api/dummy (server.py `get_dummy`): 200 with a freshly generated
object id (rendered as a string) and the current time.  The two
nondeterministic inputs — the generated ObjectId and `datetime.now()` —
are passed as parameters. -/
def get_dummy (oid : Nat) (now : Nat) : HTTPResult DummyResponse :=
  .ok 200 ⟨toString oid, now⟩

/-- Well-formedness of a store state: every document id and item id is
below the id counter, and item ids are unique within each list. -/
def Store.WF (s : Store) : Prop :=
  (∀ d ∈ s.docs, d.id < s.nextId) ∧
  (∀ d ∈ s.docs, ∀ it ∈ d.items, it.id < s.nextId) ∧
  (∀ d ∈ s.docs, (d.items.map (fun it => it.id)).Nodup)

instance (s : Store) : Decidable s.WF := by
  unfold Store.WF; infer_instance

/-- One API operation on the store state. -/
inductive Step : Store → Store → Prop where
  | createList (s : Store) (name : String) :
      Step s (s.create_todo_list name).2
  | deleteList (s : Store) (list_id : Nat) :
      Step s (s.delete_todo_list list_id).2
  | createItem (s : Store) (list_id : Nat) (label : String)
      (r : ToDoList) (s2 : Store) :
      s.create_item list_id label = some (r, s2) → Step s s2
  | deleteItem (s : Store) (list_id item_id : Nat)
      (r : ToDoList) (s2 : Store) :
      s.delete_item list_id item_id = some (r, s2) → Step s s2
  | setChecked (s : Store) (list_id item_id : Nat) (c : Bool)
      (r : ToDoList) (s2 : Store) :
      s.set_checked_state list_id item_id c = some (r, s2) → Step s s2

/-- Store states reachable from the empty store through API operations. -/
inductive Reachable : Store → Prop where
  | init : Reachable ⟨[], 0⟩
  | step {s s2 : Store} : Reachable s → Step s s2 → Reachable s2

/-! ### Helper lemmas about the atomic update primitive -/

theorem findAndUpdate_eq_none {p : ToDoList → Bool} {f : ToDoList → ToDoList}
    {l : List ToDoList} :
    findAndUpdate p f l = none ↔ ∀ x ∈ l, p x = false := by
  induction l with
  | nil => simp [findAndUpdate]
  | cons d ds ih =>
    rw [findAndUpdate]
    by_cases hp : p d
    · rw [if_pos hp]
      constructor
      · intro h; cases h
      · intro h
        have hd := h d (List.mem_cons_self d ds)
        rw [hp] at hd
        cases hd
    · rw [if_neg hp]
      cases hfa : findAndUpdate p f ds with
      | none =>
        constructor
        · intro _ x hx
          rcases List.mem_cons.mp hx with rfl | hx
          · exact Bool.eq_false_iff.mpr hp
          · exact ih.mp hfa x hx
        · intro _; rfl
      | some pr =>
        obtain ⟨r, ds2⟩ := pr
        constructor
        · intro h; cases h
        · intro h
          have hnone : findAndUpdate p f ds = none :=
            ih.mpr (fun x hx => h x (List.mem_cons_of_mem _ hx))
          rw [hnone] at hfa
          cases hfa

theorem findAndUpdate_some_decomp {p : ToDoList → Bool} {f : ToDoList → ToDoList}
    {l l2 : List ToDoList} {r : ToDoList}
    (h : findAndUpdate p f l = some (r, l2)) :
    ∃ pre d suf, l = pre ++ d :: suf ∧ (∀ x ∈ pre, p x = false) ∧ p d = true ∧
      r = f d ∧ l2 = pre ++ f d :: suf := by
  induction l generalizing r l2 with
  | nil => simp [findAndUpdate] at h
  | cons d ds ih =>
    rw [findAndUpdate] at h
    by_cases hp : p d
    · rw [if_pos hp] at h
      simp only [Option.some.injEq, Prod.mk.injEq] at h
      obtain ⟨rfl, rfl⟩ := h
      exact ⟨[], d, ds, rfl, by simp, hp, rfl, rfl⟩
    · rw [if_neg hp] at h
      cases hfa : findAndUpdate p f ds with
      | none => rw [hfa] at h; cases h
      | some pr =>
        obtain ⟨r2, ds2⟩ := pr
        rw [hfa] at h
        simp only [Option.some.injEq, Prod.mk.injEq] at h
        obtain ⟨rfl, rfl⟩ := h
        obtain ⟨pre, d0, suf, hl, hpre, hpd, hr, hl2⟩ := ih hfa
        refine ⟨d :: pre, d0, suf, by simp [hl], ?_, hpd, hr, by simp [hl2]⟩
        intro x hx
        rcases List.mem_cons.mp hx with rfl | hx
        · exact Bool.eq_false_iff.mpr hp
        · exact hpre x hx

theorem findAndUpdate_of_parts {p : ToDoList → Bool} {f : ToDoList → ToDoList}
    (pre : List ToDoList) (d : ToDoList) (suf : List ToDoList)
    (hpre : ∀ x ∈ pre, p x = false) (hd : p d = true) :
    findAndUpdate p f (pre ++ d :: suf) = some (f d, pre ++ f d :: suf) := by
  induction pre with
  | nil => simp [findAndUpdate, hd]
  | cons x xs ih =>
    have hx : p x = false := hpre x (List.mem_cons_self x xs)
    rw [List.cons_append, findAndUpdate, if_neg (by simp [hx])]
    rw [ih (fun y hy => hpre y (List.mem_cons_of_mem _ hy))]
    rfl

theorem find?_eq_some_decomp {p : ToDoList → Bool} {l : List ToDoList} {d : ToDoList}
    (h : l.find? p = some d) :
    ∃ pre suf, l = pre ++ d :: suf ∧ (∀ x ∈ pre, p x = false) ∧ p d = true := by
  induction l with
  | nil => simp at h
  | cons x xs ih =>
    by_cases hp : p x
    · rw [List.find?_cons_of_pos _ hp] at h
      obtain rfl := Option.some.injEq .. ▸ h
      exact ⟨[], xs, rfl, by simp, hp⟩
    · rw [List.find?_cons_of_neg _ hp] at h
      obtain ⟨pre, suf, hl, hpre, hpd⟩ := ih h
      refine ⟨x :: pre, suf, by simp [hl], ?_, hpd⟩
      intro y hy
      rcases List.mem_cons.mp hy with rfl | hy
      · exact Bool.eq_false_iff.mpr hp
      · exact hpre y hy

/-! ### Claim theorems -/

/-- C1: DELETE /api/lists/\x7blist_id\x7d always answers HTTP 200 with a body
`{"success": b}`: `b` is true exactly when a list document with that id
existed (and was deleted) and false when none exists; a missing list is
never an error or a 404, so deleting the same id twice yields the stored
flag first and then necessarily success=false. -/
theorem delete_list_always_200_success_flag (s : Store) (lid : Nat) :
    (∃ b : Bool, (delete_list s lid).1 = HTTPResult.ok 200 b ∧
      (b = true ↔ ∃ d ∈ s.docs, d.id = lid)) ∧
    (delete_list (delete_list s lid).2 lid).1 = HTTPResult.ok 200 false := by
  constructor
  · refine ⟨s.docs.any (fun d => d.id == lid), rfl, ?_⟩
    simp [List.any_eq_true]
  · have hall : ((s.docs.filter fun d => d.id != lid).any fun d => d.id == lid) = false := by
      rw [List.any_eq_false]
      intro x hx
      have h2 := (List.mem_filter.mp hx).2
      simp only [bne_iff_ne, ne_eq] at h2
      simp [h2]
    simp only [delete_list, Store.delete_todo_list]
    rw [hall]

/-- C2 counterexample: with an empty store (the list is the absent entity)
and with a store holding list 0 that has no items (the item is the absent
entity), the delete-item and checked-state routes return the identical
response `404 "Item not found"` in all four cases; the message therefore
does not identify whether the list or the item was the missing entity. -/
theorem notfound_message_counterexample :
    (delete_item ⟨[], 0⟩ 0 0).1 = HTTPResult.error 404 "Item not found" ∧
    (delete_item ⟨[⟨0, "Groceries", []⟩], 1⟩ 0 0).1
      = HTTPResult.error 404 "Item not found" ∧
    (set_checked_state ⟨[], 0⟩ 0 0 true).1 = HTTPResult.error 404 "Item not found" ∧
    (set_checked_state ⟨[⟨0, "Groceries", []⟩], 1⟩ 0 0 true).1
      = HTTPResult.error 404 "Item not found" :=
  ⟨rfl, rfl, rfl, rfl⟩

/-- C2 amended: every item sub-operation that does not succeed answers
HTTP 404 with the short fixed message of its route — "List not found" for
item creation, "Item not found" for item deletion and for the checked-state
update — regardless of which entity (list or item) was absent; on such an
error the store is left unchanged. -/
theorem notfound_messages_fixed (s : Store) (lid iid : Nat) (label : String) (c : Bool) :
    ((∃ l s2, create_todo_item s lid label = (HTTPResult.ok 201 l, s2)) ∨
      create_todo_item s lid label = (HTTPResult.error 404 "List not found", s)) ∧
    ((∃ l s2, delete_item s lid iid = (HTTPResult.ok 200 l, s2)) ∨
      delete_item s lid iid = (HTTPResult.error 404 "Item not found", s)) ∧
    ((∃ l s2, set_checked_state s lid iid c = (HTTPResult.ok 200 l, s2)) ∨
      set_checked_state s lid iid c = (HTTPResult.error 404 "Item not found", s)) := by
  refine ⟨?_, ?_, ?_⟩
  · cases h : s.create_item lid label with
    | none => exact Or.inr (by simp [create_todo_item, h])
    | some pr =>
      obtain ⟨l, s2⟩ := pr
      exact Or.inl ⟨l, s2, by simp [create_todo_item, h]⟩
  · cases h : s.delete_item lid iid with
    | none => exact Or.inr (by simp [delete_item, h])
    | some pr =>
      obtain ⟨l, s2⟩ := pr
      exact Or.inl ⟨l, s2, by simp [delete_item, h]⟩
  · cases h : s.set_checked_state lid iid c with
    | none => exact Or.inr (by simp [set_checked_state, h])
    | some pr =>
      obtain ⟨l, s2⟩ := pr
      exact Or.inl ⟨l, s2, by simp [set_checked_state, h]⟩

/-- C4: GET /api/lists/\x7blist_id\x7d answers HTTP 200 with the full stored
list when a document with that id exists, and HTTP 404 when no document
matches. -/
theorem get_list_contract (s : Store) (lid : Nat) :
    ((∃ d ∈ s.docs, d.id = lid) →
      ∃ d, d ∈ s.docs ∧ d.id = lid ∧ get_list s lid = HTTPResult.ok 200 d) ∧
    ((∀ d ∈ s.docs, d.id ≠ lid) →
      get_list s lid = HTTPResult.error 404 "Not Found") := by
  constructor
  · rintro ⟨d0, hd0, hid⟩
    cases hf : s.docs.find? (fun d => d.id == lid) with
    | none =>
      exfalso
      have := List.find?_eq_none.mp hf d0 hd0
      simp [hid] at this
    | some d =>
      refine ⟨d, List.mem_of_find?_eq_some hf, by simpa using List.find?_some hf, ?_⟩
      simp [get_list, Store.get_todo_list, hf]
  · intro h
    have hnone : s.docs.find? (fun d => d.id == lid) = none := by
      rw [List.find?_eq_none]
      intro x hx
      simp [h x hx]
    simp [get_list, Store.get_todo_list, hnone]

/-- Witness for C4 at concrete stores: list 5 is found, id 7 is not. -/
theorem get_list_contract_witness :
    (∃ d, d ∈ (⟨[⟨5, "A", []⟩], 6⟩ : Store).docs ∧ d.id = 5 ∧
      get_list ⟨[⟨5, "A", []⟩], 6⟩ 5 = HTTPResult.ok 200 d) ∧
    get_list ⟨[⟨5, "A", []⟩], 6⟩ 7 = HTTPResult.error 404 "Not Found" :=
  ⟨(get_list_contract ⟨[⟨5, "A", []⟩], 6⟩ 5).1 ⟨⟨5, "A", []⟩, by simp, rfl⟩,
   (get_list_contract ⟨[⟨5, "A", []⟩], 6⟩ 7).2 (by decide)⟩

/-- C10: GET /api/dummy answers HTTP 200 with a body holding the freshly
generated object id rendered as a string in field `id` and the current
time in field `when`. -/
theorem get_dummy_contract (oid now : Nat) :
    ∃ body : DummyResponse, get_dummy oid now = HTTPResult.ok 200 body ∧
      body.id = toString oid ∧ body.when = now :=
  ⟨⟨toString oid, now⟩, rfl, rfl, rfl⟩

/-- C3: POST /api/lists/\x7blist_id\x7d/items answers 404 "List not found"
exactly when no list with that id exists; otherwise it answers 201 with
the updated full list, in which a new unchecked item carrying the given
label has been appended to the stored list's item sequence. -/
theorem create_item_contract (s : Store) (lid : Nat) (label : String) :
    ((∀ d ∈ s.docs, d.id ≠ lid) →
      create_todo_item s lid label = (HTTPResult.error 404 "List not found", s)) ∧
    ((∃ d ∈ s.docs, d.id = lid) →
      ∃ d s2, d ∈ s.docs ∧ d.id = lid ∧
        create_todo_item s lid label =
          (HTTPResult.ok 201 { d with items := d.items ++ [⟨s.nextId, label, false⟩] }, s2)) := by
  constructor
  · intro h
    have hnone : findAndUpdate (fun d => d.id == lid)
        (fun d => { d with items := d.items ++ [⟨s.nextId, label, false⟩] })
        s.docs = none := by
      rw [findAndUpdate_eq_none]
      intro x hx
      simp [h x hx]
    simp [create_todo_item, Store.create_item, hnone]
  · rintro ⟨d0, hd0, hid⟩
    cases hfa : findAndUpdate (fun d => d.id == lid)
        (fun d => { d with items := d.items ++ [⟨s.nextId, label, false⟩] }) s.docs with
    | none =>
      exfalso
      have := findAndUpdate_eq_none.mp hfa d0 hd0
      simp [hid] at this
    | some pr =>
      obtain ⟨r, docs2⟩ := pr
      obtain ⟨pre, d, suf, hl, hpre, hpd, hr, hl2⟩ := findAndUpdate_some_decomp hfa
      refine ⟨d, ⟨docs2, s.nextId + 1⟩, ?_, by simpa using hpd, ?_⟩
      · rw [hl]
        exact List.mem_append.mpr (Or.inr (List.mem_cons_self d suf))
      · simp [create_todo_item, Store.create_item, hfa, hr]

/-- Witness for C3 at concrete stores: list 0 is absent in the empty
store; in a one-list store the item is appended. -/
theorem create_item_contract_witness :
    create_todo_item ⟨[], 0⟩ 0 "Milk" = (HTTPResult.error 404 "List not found", ⟨[], 0⟩) ∧
    ∃ d s2, d ∈ (⟨[⟨0, "G", []⟩], 1⟩ : Store).docs ∧ d.id = 0 ∧
      create_todo_item ⟨[⟨0, "G", []⟩], 1⟩ 0 "Milk" =
        (HTTPResult.ok 201 { d with items := d.items ++ [⟨1, "Milk", false⟩] }, s2) :=
  ⟨(create_item_contract ⟨[], 0⟩ 0 "Milk").1 (by decide),
   (create_item_contract ⟨[⟨0, "G", []⟩], 1⟩ 0 "Milk").2 ⟨⟨0, "G", []⟩, by simp, rfl⟩⟩

/-- C5: on a well-formed store, creating a list and then fetching it by
the returned id round-trips: the creation answers 201 with the generated
id paired with the given name, and the subsequent GET answers 200 with
that id, that name, and an empty item sequence. -/
theorem create_then_get_roundtrip (s : Store) (name : String) (h : s.WF) :
    ∃ newId s2, create_todo_list s name = (HTTPResult.ok 201 ⟨newId, name⟩, s2) ∧
      get_list s2 newId = HTTPResult.ok 200 ⟨newId, name, []⟩ := by
  refine ⟨s.nextId, (s.create_todo_list name).2, rfl, ?_⟩
  have hnone : s.docs.find? (fun d => d.id == s.nextId) = none := by
    rw [List.find?_eq_none]
    intro x hx
    simp [Nat.ne_of_lt (h.1 x hx)]
  simp [get_list, Store.get_todo_list, Store.create_todo_list, List.find?_append, hnone]

/-- Witness for C5: on the empty store the round trip hands back id 0. -/
theorem create_then_get_roundtrip_witness :
    ∃ newId s2,
      create_todo_list ⟨[], 0⟩ "Groceries" = (HTTPResult.ok 201 ⟨newId, "Groceries"⟩, s2) ∧
      get_list s2 newId = HTTPResult.ok 200 ⟨newId, "Groceries", []⟩ :=
  create_then_get_roundtrip ⟨[], 0⟩ "Groceries" (by decide)

/-- C6: creating an item on an existing list appends it at the end: the
response is 201 with the stored list extended by exactly one final item
whose checked flag is false and whose label is the given one, so the
returned item sequence is one longer than before. -/
theorem create_item_appends (s : Store) (lid : Nat) (label : String) (d : ToDoList)
    (hget : s.get_todo_list lid = some d) :
    ∃ it s2, create_todo_item s lid label =
        (HTTPResult.ok 201 { d with items := d.items ++ [it] }, s2) ∧
      it.checked = false ∧ it.label = label ∧
      (d.items ++ [it]).length = d.items.length + 1 := by
  have hget2 : s.docs.find? (fun x => x.id == lid) = some d := hget
  obtain ⟨pre, suf, hl, hpre, hpd⟩ := find?_eq_some_decomp hget2
  have hfa : findAndUpdate (fun x => x.id == lid)
      (fun x => { x with items := x.items ++ [⟨s.nextId, label, false⟩] })
      (pre ++ d :: suf) =
      some ({ d with items := d.items ++ [⟨s.nextId, label, false⟩] },
        pre ++ { d with items := d.items ++ [⟨s.nextId, label, false⟩] } :: suf) :=
    findAndUpdate_of_parts pre d suf hpre hpd
  have hdal : s.create_item lid label =
      some ({ d with items := d.items ++ [⟨s.nextId, label, false⟩] },
        ⟨pre ++ { d with items := d.items ++ [⟨s.nextId, label, false⟩] } :: suf,
          s.nextId + 1⟩) := by
    unfold Store.create_item
    rw [hl, hfa]
  refine ⟨⟨s.nextId, label, false⟩,
    ⟨pre ++ { d with items := d.items ++ [⟨s.nextId, label, false⟩] } :: suf, s.nextId + 1⟩,
    ?_, rfl, rfl, by simp⟩
  simp [create_todo_item, hdal]

/-- Witness for C6 on a one-list store. -/
theorem create_item_appends_witness :
    ∃ it s2, create_todo_item ⟨[⟨0, "G", []⟩], 1⟩ 0 "Milk" =
        (HTTPResult.ok 201 { (⟨0, "G", []⟩ : ToDoList) with
          items := ([] : List ToDoItem) ++ [it] }, s2) ∧
      it.checked = false ∧ it.label = "Milk" ∧
      (([] : List ToDoItem) ++ [it]).length = ([] : List ToDoItem).length + 1 :=
  create_item_appends ⟨[⟨0, "G", []⟩], 1⟩ 0 "Milk" ⟨0, "G", []⟩ rfl

/-- C7: setting the checked state with an item id that occurs in no stored
list carrying the requested list id — while such a list exists — answers
404 "Item not found" and leaves the whole store unchanged. -/
theorem set_checked_unknown_item (s : Store) (lid iid : Nat) (c : Bool)
    (hex : ∃ d ∈ s.docs, d.id = lid)
    (habs : ∀ d ∈ s.docs, d.id = lid → ∀ it ∈ d.items, it.id ≠ iid) :
    set_checked_state s lid iid c = (HTTPResult.error 404 "Item not found", s) := by
  have hnone : findAndUpdate
      (fun d => d.id == lid && d.items.any (fun it => it.id == iid))
      (fun d => { d with
        items := d.items.map
          (fun it => if it.id == iid then { it with checked := c } else it) })
      s.docs = none := by
    rw [findAndUpdate_eq_none]
    intro x hx
    by_cases hid : x.id = lid
    · have hany : (x.items.any fun it => it.id == iid) = false := by
        rw [List.any_eq_false]
        intro it hit
        simp [habs x hx hid it hit]
      simp [hany]
    · simp [hid]
  have hdal : s.set_checked_state lid iid c = none := by
    unfold Store.set_checked_state
    rw [hnone]
  simp [set_checked_state, hdal]

/-- Witness for C7: list 0 exists, item 99 does not occur in it. -/
theorem set_checked_unknown_item_witness :
    set_checked_state ⟨[⟨0, "G", [⟨1, "Milk", false⟩]⟩], 2⟩ 0 99 true =
      (HTTPResult.error 404 "Item not found", ⟨[⟨0, "G", [⟨1, "Milk", false⟩]⟩], 2⟩) :=
  set_checked_unknown_item ⟨[⟨0, "G", [⟨1, "Milk", false⟩]⟩], 2⟩ 0 99 true
    ⟨⟨0, "G", [⟨1, "Milk", false⟩]⟩, by simp, rfl⟩ (by decide)

/-- C8: when the stored list for the requested id has unique item ids and
contains an item with the requested item id, deleting that item answers
200 with the list split as `pre ++ it :: suf` turned into `pre ++ suf`:
exactly the item with that id is removed, and every other item, all its
fields, and the relative order are unchanged. -/
theorem delete_item_frame (s : Store) (lid iid : Nat) (d : ToDoList)
    (hget : s.get_todo_list lid = some d)
    (hnd : (d.items.map (fun it => it.id)).Nodup)
    (hmem : ∃ it ∈ d.items, it.id = iid) :
    ∃ pre it suf,
      d.items = pre ++ it :: suf ∧ it.id = iid ∧
      (delete_item s lid iid).1 = HTTPResult.ok 200 { d with items := pre ++ suf } := by
  obtain ⟨it0, hit0, hid0⟩ := hmem
  obtain ⟨pre, suf, hitems⟩ := List.append_of_mem hit0
  have hget2 : s.docs.find? (fun x => x.id == lid) = some d := hget
  obtain ⟨preD, sufD, hdocs, hpreD, hpdD⟩ := find?_eq_some_decomp hget2
  have hpd2 : (d.id == lid && d.items.any (fun it => it.id == iid)) = true := by
    simp only [Bool.and_eq_true]
    refine ⟨hpdD, ?_⟩
    rw [List.any_eq_true]
    exact ⟨it0, hit0, by simp [hid0]⟩
  have hpre2 : ∀ x ∈ preD,
      (x.id == lid && x.items.any (fun it => it.id == iid)) = false := by
    intro x hx
    have hfalse := hpreD x hx
    simp only [hfalse, Bool.false_and]
  have hfa : findAndUpdate
      (fun x => x.id == lid && x.items.any (fun it => it.id == iid))
      (fun x => { x with items := x.items.filter (fun it => it.id != iid) })
      (preD ++ d :: sufD) =
      some ({ d with items := d.items.filter (fun it => it.id != iid) },
        preD ++ { d with items := d.items.filter (fun it => it.id != iid) } :: sufD) :=
    findAndUpdate_of_parts preD d sufD hpre2 hpd2
  have hnd2 : (pre.map (fun it => it.id) ++
      it0.id :: suf.map (fun it => it.id)).Nodup := by
    have hx := hnd
    rw [hitems] at hx
    simpa using hx
  rw [List.nodup_append] at hnd2
  have hpre_ne : ∀ x ∈ pre, (x.id != iid) = true := by
    intro x hx
    rw [bne_iff_ne]
    intro heq
    exact hnd2.2.2 (List.mem_map_of_mem _ hx)
      (by rw [heq, ← hid0]; exact List.mem_cons_self _ _)
  have hsuf_ne : ∀ x ∈ suf, (x.id != iid) = true := by
    intro x hx
    rw [bne_iff_ne]
    intro heq
    have hcons := hnd2.2.1
    rw [List.nodup_cons] at hcons
    exact hcons.1 (by rw [hid0, ← heq]; exact List.mem_map_of_mem _ hx)
  have hfilter : d.items.filter (fun it => it.id != iid) = pre ++ suf := by
    rw [hitems, List.filter_append, List.filter_cons]
    rw [if_neg (by simp [hid0])]
    rw [List.filter_eq_self.mpr hpre_ne, List.filter_eq_self.mpr hsuf_ne]
  have hdal : s.delete_item lid iid =
      some ({ d with items := d.items.filter (fun it => it.id != iid) },
        ⟨preD ++ { d with items := d.items.filter (fun it => it.id != iid) } :: sufD,
          s.nextId⟩) := by
    unfold Store.delete_item
    rw [hdocs, hfa]
  refine ⟨pre, it0, suf, hitems, hid0, ?_⟩
  simp only [delete_item, hdal]
  rw [hfilter]

/-- Witness for C8: deleting item 1 from a two-item list keeps item 2. -/
theorem delete_item_frame_witness :
    ∃ pre it suf,
      [⟨1, "Milk", false⟩, ⟨2, "Eggs", true⟩] = pre ++ it :: suf ∧
      ToDoItem.id it = 1 ∧
      (delete_item ⟨[⟨0, "G", [⟨1, "Milk", false⟩, ⟨2, "Eggs", true⟩]⟩], 3⟩ 0 1).1 =
        HTTPResult.ok 200
          { (⟨0, "G", [⟨1, "Milk", false⟩, ⟨2, "Eggs", true⟩]⟩ : ToDoList) with
            items := pre ++ suf } :=
  delete_item_frame ⟨[⟨0, "G", [⟨1, "Milk", false⟩, ⟨2, "Eggs", true⟩]⟩], 3⟩ 0 1
    ⟨0, "G", [⟨1, "Milk", false⟩, ⟨2, "Eggs", true⟩]⟩ rfl (by decide)
    ⟨⟨1, "Milk", false⟩, by simp, rfl⟩

/-! ### Preservation of well-formedness by every operation -/

theorem wf_empty : (⟨[], 0⟩ : Store).WF := by decide

theorem wf_create_todo_list (s : Store) (name : String) (h : s.WF) :
    ((s.create_todo_list name).2).WF := by
  obtain ⟨h1, h2, h3⟩ := h
  refine ⟨?_, ?_, ?_⟩ <;> intro d hd <;>
    rcases List.mem_append.mp hd with hd | hd
  · exact Nat.lt_succ_of_lt (h1 d hd)
  · rw [List.mem_singleton.mp hd]
    exact Nat.lt_succ_self _
  · intro it hit
    exact Nat.lt_succ_of_lt (h2 d hd it hit)
  · intro it hit
    rw [List.mem_singleton.mp hd] at hit
    simp at hit
  · exact h3 d hd
  · rw [List.mem_singleton.mp hd]
    simp

theorem wf_delete_todo_list (s : Store) (lid : Nat) (h : s.WF) :
    ((s.delete_todo_list lid).2).WF := by
  obtain ⟨h1, h2, h3⟩ := h
  exact ⟨fun d hd => h1 d (List.mem_filter.mp hd).1,
    fun d hd => h2 d (List.mem_filter.mp hd).1,
    fun d hd => h3 d (List.mem_filter.mp hd).1⟩

theorem wf_findAndUpdate (s : Store) (p : ToDoList → Bool)
    (g : List ToDoItem → List ToDoItem) (r : ToDoList) (docs2 : List ToDoList) (k : Nat)
    (hfa : findAndUpdate p (fun d => { d with items := g d.items }) s.docs
      = some (r, docs2))
    (h : s.WF) (hk : s.nextId ≤ k)
    (hbound : ∀ d ∈ s.docs, ∀ it ∈ g d.items, it.id < k)
    (hnodup : ∀ d ∈ s.docs, ((g d.items).map (fun it => it.id)).Nodup) :
    (⟨docs2, k⟩ : Store).WF := by
  obtain ⟨h1, h2, h3⟩ := h
  obtain ⟨pre, d0, suf, hl, hpre, hpd, hr, hl2⟩ := findAndUpdate_some_decomp hfa
  have hd0 : d0 ∈ s.docs := by
    rw [hl]
    exact List.mem_append.mpr (Or.inr (List.mem_cons_self _ _))
  have hmem : ∀ x ∈ docs2, x ∈ s.docs ∨ x = { d0 with items := g d0.items } := by
    intro x hx
    rw [hl2] at hx
    rcases List.mem_append.mp hx with hx | hx
    · exact Or.inl (by rw [hl]; exact List.mem_append.mpr (Or.inl hx))
    · rcases List.mem_cons.mp hx with rfl | hx
      · exact Or.inr rfl
      · exact Or.inl
          (by rw [hl]; exact List.mem_append.mpr (Or.inr (List.mem_cons_of_mem _ hx)))
  refine ⟨?_, ?_, ?_⟩
  · intro d hd
    rcases hmem d hd with hmem1 | rfl
    · exact Nat.lt_of_lt_of_le (h1 d hmem1) hk
    · exact Nat.lt_of_lt_of_le (h1 d0 hd0) hk
  · intro d hd it hit
    rcases hmem d hd with hmem1 | rfl
    · exact Nat.lt_of_lt_of_le (h2 d hmem1 it hit) hk
    · exact hbound d0 hd0 it hit
  · intro d hd
    rcases hmem d hd with hmem1 | rfl
    · exact h3 d hmem1
    · exact hnodup d0 hd0

theorem wf_create_item (s : Store) (lid : Nat) (label : String)
    (r : ToDoList) (s2 : Store) (h : s.WF)
    (he : s.create_item lid label = some (r, s2)) : s2.WF := by
  unfold Store.create_item at he
  cases hfa : findAndUpdate (fun d => d.id == lid)
      (fun d => { d with items := d.items ++ [⟨s.nextId, label, false⟩] }) s.docs with
  | none => rw [hfa] at he; cases he
  | some pr =>
    obtain ⟨r2, docs2⟩ := pr
    rw [hfa] at he
    simp only [Option.some.injEq, Prod.mk.injEq] at he
    obtain ⟨rfl, hs2⟩ := he
    rw [← hs2]
    refine wf_findAndUpdate s _ (fun its => its ++ [⟨s.nextId, label, false⟩])
      r2 docs2 (s.nextId + 1) hfa ⟨h.1, h.2.1, h.2.2⟩ (Nat.le_succ _) ?_ ?_
    · intro d hd it hit
      rcases List.mem_append.mp hit with hit | hit
      · exact Nat.lt_succ_of_lt (h.2.1 d hd it hit)
      · rw [List.mem_singleton.mp hit]
        exact Nat.lt_succ_self _
    · intro d hd
      rw [List.map_append, List.nodup_append]
      refine ⟨h.2.2 d hd, by simp, ?_⟩
      intro a ha hb
      simp only [List.map_cons, List.map_nil, List.mem_singleton] at hb
      obtain ⟨it, hit, hita⟩ := List.mem_map.mp ha
      have := h.2.1 d hd it hit
      rw [hita, hb] at this
      exact Nat.lt_irrefl _ this

theorem wf_delete_item (s : Store) (lid iid : Nat)
    (r : ToDoList) (s2 : Store) (h : s.WF)
    (he : s.delete_item lid iid = some (r, s2)) : s2.WF := by
  unfold Store.delete_item at he
  cases hfa : findAndUpdate
      (fun d => d.id == lid && d.items.any (fun it => it.id == iid))
      (fun d => { d with items := d.items.filter (fun it => it.id != iid) }) s.docs with
  | none => rw [hfa] at he; cases he
  | some pr =>
    obtain ⟨r2, docs2⟩ := pr
    rw [hfa] at he
    simp only [Option.some.injEq, Prod.mk.injEq] at he
    obtain ⟨rfl, hs2⟩ := he
    rw [← hs2]
    refine wf_findAndUpdate s _ (fun its => its.filter (fun it => it.id != iid))
      r2 docs2 s.nextId hfa ⟨h.1, h.2.1, h.2.2⟩ (Nat.le_refl _) ?_ ?_
    · intro d hd it hit
      exact h.2.1 d hd it (List.mem_filter.mp hit).1
    · intro d hd
      exact List.Nodup.sublist
        (List.Sublist.map _ (List.filter_sublist d.items)) (h.2.2 d hd)

theorem wf_set_checked_state (s : Store) (lid iid : Nat) (c : Bool)
    (r : ToDoList) (s2 : Store) (h : s.WF)
    (he : s.set_checked_state lid iid c = some (r, s2)) : s2.WF := by
  unfold Store.set_checked_state at he
  cases hfa : findAndUpdate
      (fun d => d.id == lid && d.items.any (fun it => it.id == iid))
      (fun d => { d with
        items := d.items.map
          (fun it => if it.id == iid then { it with checked := c } else it) })
      s.docs with
  | none => rw [hfa] at he; cases he
  | some pr =>
    obtain ⟨r2, docs2⟩ := pr
    rw [hfa] at he
    simp only [Option.some.injEq, Prod.mk.injEq] at he
    obtain ⟨rfl, hs2⟩ := he
    rw [← hs2]
    have hidpres : ∀ it : ToDoItem,
        (if it.id == iid then { it with checked := c } else it).id = it.id := by
      intro it
      by_cases hb : it.id == iid
      · rw [if_pos hb]
      · rw [if_neg hb]
    refine wf_findAndUpdate s _
      (fun its => its.map (fun it => if it.id == iid then { it with checked := c } else it))
      r2 docs2 s.nextId hfa ⟨h.1, h.2.1, h.2.2⟩ (Nat.le_refl _) ?_ ?_
    · intro d hd it hit
      obtain ⟨it0, hit0, rfl⟩ := List.mem_map.mp hit
      rw [hidpres it0]
      exact h.2.1 d hd it0 hit0
    · intro d hd
      rw [List.map_map]
      have hmapeq : d.items.map
          ((fun it => it.id) ∘
            (fun it => if it.id == iid then { it with checked := c } else it))
          = d.items.map (fun it => it.id) :=
        List.map_congr_left (fun a _ => hidpres a)
      rw [hmapeq]
      exact h.2.2 d hd

theorem reachable_wf (s : Store) (h : Reachable s) : s.WF := by
  induction h with
  | init => exact wf_empty
  | step hr hstep ih =>
    cases hstep with
    | createList name => exact wf_create_todo_list _ name ih
    | deleteList lid => exact wf_delete_todo_list _ lid ih
    | createItem lid label r s2 he => exact wf_create_item _ lid label r _ ih he
    | deleteItem lid iid r s2 he => exact wf_delete_item _ lid iid r _ ih he
    | setChecked lid iid c r s2 he => exact wf_set_checked_state _ lid iid c r _ ih he

/-- C9: in every store state reachable from the empty store through the
API operations (list creation/deletion, item creation/deletion,
checked-state update), item identifiers are unique within each stored
list's item sequence; the empty item sequence satisfies this trivially. -/
theorem reachable_item_ids_unique (s : Store) (h : Reachable s) :
    ∀ d ∈ s.docs, (d.items.map (fun it => it.id)).Nodup :=
  (reachable_wf s h).2.2

/-- Witness for C9 on the store reached by creating a list and then an
item on it. -/
theorem reachable_item_ids_unique_witness :
    ((⟨0, "Groceries", [⟨1, "Milk", false⟩]⟩ : ToDoList).items.map
      (fun it => it.id)).Nodup :=
  reachable_item_ids_unique ⟨[⟨0, "Groceries", [⟨1, "Milk", false⟩]⟩], 2⟩
    (Reachable.step
      (Reachable.step Reachable.init (Step.createList ⟨[], 0⟩ "Groceries"))
      (Step.createItem ⟨[⟨0, "Groceries", []⟩], 1⟩ 0 "Milk"
        ⟨0, "Groceries", [⟨1, "Milk", false⟩]⟩
        ⟨[⟨0, "Groceries", [⟨1, "Milk", false⟩]⟩], 2⟩ rfl))
    ⟨0, "Groceries", [⟨1, "Milk", false⟩]⟩ (List.mem_singleton.mpr rfl)

end FarmTodo
